import Mathlib

/-!
Shallow embedding of the gitCompass backend orchestration logic
(skills routes, repository-recommendation route, guide-generation route)
together with theorems settling the specification claims about it.

The JavaScript route handlers are translated to pure Lean functions:
upstream HTTP calls (the AI microservice, the GitHub search API) become
explicit `Except`-valued oracle arguments, `Math.random()` becomes an
explicit `rng : Nat → Nat` argument, and JSON objects become structures
whose optional keys are `Option` fields.  JavaScript falsiness of the
relevant value classes (numbers, strings, null/undefined) is modelled
explicitly where the source relies on it (`||` defaulting).
-/

namespace GitCompass

/-- A stored skill, one element of the `skills` array on the User document
(User schema: `skills: [{ name: String, confidence: Number, category: String }]`). -/
structure Skill where
  name : String
  confidence : Int
  category : String
deriving Repr, DecidableEq

/-- A skill object as submitted in the request body of `POST /api/skills`.
`none` models an absent, `null` or `undefined` JSON field. -/
structure SkillInput where
  name : String
  confidence : Option Int := none
  category : Option String := none
deriving Repr, DecidableEq

/-- JS `String.prototype.toLowerCase()` as used on skill names: lower-case
every character.  (Spelled as a structural map over the character list so
that it reduces in the kernel.) -/
def lowerName (s : String) : String :=
  { data := s.data.map Char.toLower }

/-- JS `skill.confidence || 80` from the add-skills handler: the default fires
on every falsy value, i.e. on `0` as well as on `null`/`undefined`/absent. -/
def confOrDefault : Option Int → Int
  | some v => if v = 0 then 80 else v
  | none => 80

/-- JS `skill.category || 'Manual'` from the add-skills handler: the default
fires on every falsy value, i.e. on the empty string as well as on
`null`/`undefined`/absent. -/
def catOrDefault : Option String → String
  | some s => if s = "" then "Manual" else s
  | none => "Manual"

/-- The `.map` in `POST /api/skills` turning a submitted skill object into a
stored skill (`{ name: skill.name, confidence: skill.confidence || 80,
category: skill.category || 'Manual' }`). -/
def mkManualSkill (s : SkillInput) : Skill :=
  { name := s.name, confidence := confOrDefault s.confidence,
    category := catOrDefault s.category }

/-- The resume subdocument on the User document (only the field the skills
routes touch is modelled). -/
structure Resume where
  filename : String
deriving Repr, DecidableEq

/-- The slice of the User document the skills routes read and write. -/
structure UserDoc where
  skills : List Skill
  resume : Option Resume
deriving Repr, DecidableEq

/-- Result of the `POST /api/skills` handler: HTTP status, the user's skill
list after the call, and the `added` array of the response body. -/
structure AddResult where
  status : Nat
  skills : List Skill
  added : List Skill
deriving Repr, DecidableEq

/-- The `POST /api/skills` handler.  `body = none` models a request body whose
`skills` key is absent or not an array (the handler's
`!skills || !Array.isArray(skills)` guard).  The handler lower-cases the
existing names once, filters the batch against that set only, applies the
defaults and appends. -/
def addSkillsHandler (user : List Skill) (body : Option (List SkillInput)) : AddResult :=
  match body with
  | none => { status := 400, skills := user, added := [] }
  | some skills =>
    if skills.length = 0 then
      { status := 400, skills := user, added := [] }
    else
      let existingSkillNames := user.map (fun s => (lowerName s.name))
      let newSkills :=
        (skills.filter (fun s => !(existingSkillNames.contains (lowerName s.name)))).map mkManualSkill
      { status := 200, skills := user ++ newSkills, added := newSkills }

/-- The `DELETE /api/skills/:skillName` handler: filters the skill list by
case-insensitive name inequality; responds 404 (without saving, so the
stored document is unchanged) when the length did not drop. -/
def deleteSkillHandler (user : UserDoc) (skillName : String) : Nat × UserDoc :=
  let newSkills := user.skills.filter (fun s => (lowerName s.name) ≠ (lowerName skillName))
  if newSkills.length = user.skills.length then
    (404, user)
  else
    (200, { user with skills := newSkills })

/-- The `DELETE /api/skills/all` handler body: clears the skill list and the
resume record and saves once. -/
def clearAllHandler (_user : UserDoc) : Nat × UserDoc :=
  (200, { skills := [], resume := none })

/-- An Express route pattern: a literal path segment or a `:param` capture. -/
inductive Pat where
  | exact (s : String)
  | param
deriving Repr

/-- Whether an Express route pattern matches a single path segment. -/
def patMatches : Pat → String → Bool
  | .exact s, seg => s = seg
  | .param, _ => true

/-- Express dispatch for one method: routes are tried in registration order
and the first matching pattern's handler runs; no route matching yields the
default 404. -/
def dispatchDelete (routes : List (Pat × (UserDoc → String → Nat × UserDoc)))
    (user : UserDoc) (seg : String) : Nat × UserDoc :=
  match routes with
  | [] => (404, user)
  | (p, h) :: rest =>
    if patMatches p seg then h user seg else dispatchDelete rest user seg

/-- The DELETE routes of the skills router in registration order: in the
source file `router.delete('/:skillName', ...)` appears before
`router.delete('/all', ...)`. -/
def skillsDeleteRoutes : List (Pat × (UserDoc → String → Nat × UserDoc)) :=
  [ (Pat.param, fun user seg => deleteSkillHandler user seg),
    (Pat.exact ("all"), fun user _ => clearAllHandler user) ]

/-- Case-insensitive uniqueness of skill names within one user's skill list
(the invariant of spec section 3). -/
def uniqueCI (l : List Skill) : Prop :=
  l.Pairwise (fun a b => (lowerName a.name) ≠ (lowerName b.name))

instance uniqueCIDec (l : List Skill) : Decidable (uniqueCI l) := by
  unfold uniqueCI
  infer_instance

/-- One item of the GitHub repository-search response, restricted to the
fields the recommendations fallback reads (snake_case names as in the
GitHub API payload).  `topics` is optional because the handler guards it
with `repo.topics || []`. -/
structure GhRepo where
  id : Nat
  name : String
  full_name : String
  owner_login : String
  owner_avatar_url : String
  description : String
  stargazers_count : Int
  forks_count : Int
  language : String
  topics : Option (List String)
  updated_at : String
deriving Repr, DecidableEq

/-- One element of the `data` array of a successful
`GET /api/repositories/recommendations` response.  The AI path forwards the
AI service's `recommendations` array verbatim (the handler never inspects
its elements), so the same carrier type is used for both paths. -/
structure RecRepo where
  id : Nat
  name : String
  fullName : String
  ownerLogin : String
  ownerAvatarUrl : String
  description : String
  stars : Int
  forks : Int
  language : String
  topics : List String
  updatedAt : String
  matchScore : Int
  matchReason : String
  goodFirstIssues : Nat
  difficulty : String
deriving Repr, DecidableEq

/-- The three response shapes of the recommendations handler.  Note that both
200 bodies are object literals with exactly the keys `success` and `data`:
neither carries any marker of which path produced it. -/
inductive RecResponse where
  | validation (message : String)
  | ok (data : List RecRepo)
  | failure (message : String)
deriving Repr, DecidableEq

/-- An upstream HTTP call issued by the recommendations handler, recorded
with the request parameters the handler computes (`q`, `sort`, `order` and
`per_page` of the GitHub search; skills and user id of the AI call). -/
inductive NetCall where
  | aiRecommend (skills : List String) (userId : String)
  | githubSearch (q : String) (sort : String) (order : String) (perPage : Nat)
deriving Repr, DecidableEq

/-- The authenticated user as seen by the recommendations handler:
`skills = none` models a user document without a `skills` array (the
handler's `!user.skills` guard), `some l` a present array `l`. -/
structure RecUser where
  skills : Option (List Skill)
  userId : String

/-- One insertion step of the stable sort modelling JS
`skills.sort((a, b) => b.confidence - a.confidence)`: the later element `x`
is placed after every already-placed `y` whose comparator result
`b.confidence - a.confidence` is non-positive, i.e. with
`x.confidence ≤ y.confidence`; in particular `x` lands after every earlier
element of equal confidence, which is exactly the ES2019 stability
guarantee of `Array.prototype.sort`. -/
def insertByConf (x : Skill) : List Skill → List Skill
  | [] => [x]
  | y :: ys => if x.confidence ≤ y.confidence then y :: insertByConf x ys else x :: y :: ys

/-- JS `user.skills.sort((a, b) => b.confidence - a.confidence)`: a stable
sort by descending confidence, realised as left-to-right insertion. -/
def sortByConfDesc (l : List Skill) : List Skill :=
  l.foldl (fun acc x => insertByConf x acc) []

/-- The handler's `topSkills`: sort by descending confidence, keep the first
five, keep only the names. -/
def topSkills (skills : List Skill) : List String :=
  ((sortByConfDesc skills).take 5).map (fun s => s.name)

/-- The per-item `.map((repo, index) => ...)` of the fallback path.
`ts` is the handler's `topSkills` value; `ts.getD 0 "undefined"` models the
JS interpolation of `topSkills[0]` (the string `undefined` if out of range).
The two `Math.random()` draws of item `index` are modelled as
`rng (2*index)` and `rng (2*index+1)`. -/
def fallbackRepo (ts : List String) (rng : Nat → Nat) (index : Nat) (repo : GhRepo) : RecRepo :=
  { id := repo.id
    name := repo.name
    fullName := repo.full_name
    ownerLogin := repo.owner_login
    ownerAvatarUrl := repo.owner_avatar_url
    description := repo.description
    stars := repo.stargazers_count
    forks := repo.forks_count
    language := repo.language
    topics := repo.topics.getD []
    updatedAt := repo.updated_at
    matchScore := 95 - 5 * (index : Int)
    matchReason := "Matches your " ++ ts.getD 0 ("undefined") ++ " skills"
    goodFirstIssues := rng (2 * index) % 20 + 5
    difficulty := ["Easy", "Medium", "Hard"].getD (rng (2 * index + 1) % 3) ("Easy") }

/-- The `GET /api/repositories/recommendations` handler.  `ai` is the outcome
of the `POST {AI_SERVICE_URL}/api/recommend` call, `gh` the outcome of the
fallback GitHub `/search/repositories` call; each call is recorded in the
returned trace in the order issued.  The final `.error` case is the outer
catch: a fallback-search failure escapes the inner catch and produces the
500 response. -/
def recommendationsHandler (user : RecUser) (ai : Except String (List RecRepo))
    (gh : Except String (List GhRepo)) (rng : Nat → Nat) : RecResponse × List NetCall :=
  match user.skills with
  | none => (.validation ("No skills found. Please upload your resume first."), [])
  | some skills =>
    if skills.length = 0 then
      (.validation ("No skills found. Please upload your resume first."), [])
    else
      let top := topSkills skills
      match ai with
      | .ok recs => (.ok recs, [.aiRecommend top user.userId])
      | .error _ =>
        let searchQuery := String.intercalate (" OR ") top ++ " good-first-issues:>0"
        match gh with
        | .ok items =>
          (.ok (items.enum.map (fun p => fallbackRepo top rng p.1 p.2)),
           [.aiRecommend top user.userId, .githubSearch searchQuery ("stars") ("desc") 10])
        | .error _ =>
          (.failure ("Failed to get recommendations"),
           [.aiRecommend top user.userId, .githubSearch searchQuery ("stars") ("desc") 10])

/-- Specification-side strict priority order on index-tagged skills: `a`
comes before `b` when `a` has the higher confidence, or equal confidence and
the smaller original index (insertion order). -/
def specBefore (a b : Nat × Skill) : Prop :=
  b.2.confidence < a.2.confidence ∨ (a.2.confidence = b.2.confidence ∧ a.1 < b.1)

instance specBeforeDec (a b : Nat × Skill) : Decidable (specBefore a b) := by
  unfold specBefore
  infer_instance

/-- Specification-side insertion into a list sorted by `specBefore`: walk
past every element that comes before `x` in the priority order. -/
def specInsert (x : Nat × Skill) : List (Nat × Skill) → List (Nat × Skill)
  | [] => [x]
  | y :: ys => if specBefore y x then y :: specInsert x ys else x :: y :: ys

/-- Specification-side sort of index-tagged skills by the priority order. -/
def specSort (l : List (Nat × Skill)) : List (Nat × Skill) :=
  l.foldl (fun acc x => specInsert x acc) []

/-- The repository object in the body of `POST /api/guide/generate` (only the
fields the handler reads). -/
structure RepoData where
  fullName : String
  name : String
deriving Repr, DecidableEq

/-- The issue object in the body of `POST /api/guide/generate`; every field
is optional (`issueData?.field` accesses in the source). -/
structure IssueData where
  title : Option String := none
  number : Option Nat := none
  difficulty : Option String := none
  labels : Option (List String) := none
deriving Repr, DecidableEq

/-- JS `v || d` for an optional string: the default fires on `null`,
`undefined` and the (falsy) empty string. -/
def strOr (v : Option String) (d : String) : String :=
  match v with
  | some s => if s = "" then d else s
  | none => d

/-- JS `issueData?.number || ''` interpolated into a template string: an
absent (or falsy `0`) issue number renders as the empty string, a present
one as its decimal notation. -/
def numOrEmptyStr : Option Nat → String
  | some n => if n = 0 then "" else toString n
  | none => ""

/-- One entry of the template guide's `resources` array. -/
structure Resource where
  title : String
  url : String
deriving Repr, DecidableEq

/-- The `issueAnalysis` object of a guide. -/
structure IssueAnalysis where
  difficulty : String
  estimatedTime : String
  labels : List String
deriving Repr, DecidableEq

/-- The guide document produced by `POST /api/guide/generate`. -/
structure Guide where
  summary : String
  gettingStarted : List String
  issueAnalysis : IssueAnalysis
  codeConventions : List String
  tips : List String
  resources : List Resource
deriving Repr, DecidableEq

/-- The `templateGuide` object literal of the guide handler's fallback path,
with every JS template placeholder substituted. -/
def templateGuide (repoData : RepoData) (issueData : Option IssueData) : Guide :=
  let issueTitle := strOr (issueData.bind (fun d => d.title)) ("this issue")
  let issueNumber := numOrEmptyStr (issueData.bind (fun d => d.number))
  let difficulty := strOr (issueData.bind (fun d => d.difficulty)) ("medium")
  let labels := (issueData.bind (fun d => d.labels)).getD []
  { summary := "Issue #" ++ issueNumber ++ ": \"" ++ issueTitle ++ "\" in "
      ++ repoData.fullName ++ " is "
      ++ (if labels.contains ("good first issue")
          then "a great starting point for first-time contributors"
          else "an opportunity to contribute to an active open-source project")
      ++ "."
    gettingStarted := [
      "Fork the repository to your GitHub account",
      "Clone your fork: `git clone https://github.com/YOUR_USERNAME/" ++ repoData.name ++ ".git`",
      "Navigate to the project directory: `cd " ++ repoData.name ++ "`",
      "Install dependencies (check README.md for specific instructions)",
      "Create a new branch: `git checkout -b fix/issue-" ++ issueNumber ++ "`",
      "Read the issue description and comments thoroughly",
      "Make your changes addressing the issue requirements",
      "Test your changes locally",
      "Commit: `git commit -m \"Fix #" ++ issueNumber ++ ": Brief description\"`",
      "Push and open a Pull Request referencing the issue"
    ]
    issueAnalysis := {
      difficulty := difficulty
      estimatedTime :=
        if difficulty = "easy" then "1-3 hours"
        else if difficulty = "medium" then "3-8 hours"
        else "1-3 days"
      labels := labels }
    codeConventions := [
      "Read the CONTRIBUTING.md file if available",
      "Follow the existing code style in the project",
      "Write tests for new features when applicable",
      "Keep commits atomic and well-documented"
    ]
    tips := [
      "Comment on the issue to let maintainers know you\x27re working on it",
      "Check if someone is already assigned or working on this issue",
      "Start with understanding the codebase structure",
      "Ask questions in issue comments if requirements are unclear",
      "Reference the issue number in your PR description",
      "Be patient with maintainers - they are often volunteers"
    ]
    resources := [
      { title := "View Issue on GitHub",
        url := "https://github.com/" ++ repoData.fullName ++ "/issues/" ++ issueNumber },
      { title := "Repository README",
        url := "https://github.com/" ++ repoData.fullName ++ "#readme" },
      { title := "Pull Requests Guide",
        url := "https://docs.github.com/en/pull-requests" }
    ] }

/-- The JSON body (plus HTTP status) of a `POST /api/guide/generate`
response.  `isTemplate = none` models a body in which the `isTemplate` key
is absent; only the fallback 200 body carries `isTemplate: true`. -/
structure GuideResponseBody where
  status : Nat
  success : Bool
  data : Option Guide
  message : Option String
  isTemplate : Option Bool
deriving Repr, DecidableEq

/-- The `POST /api/guide/generate` handler.  `repoData = none` models an
absent `repoData` key and an empty `fullName` is the remaining falsy case of
the `!repoData || !repoData.fullName` guard.  `ai` is the outcome of the
`POST {AI_SERVICE_URL}/api/generate-guide` call.  The user's skills
(`req.user?.skills || userContext?.skills || []`) are forwarded only inside
the AI request, so they cannot influence the fallback output; the argument
is kept to make that independence statable. -/
def guideGenerateHandler (repoData : Option RepoData) (issueData : Option IssueData)
    (_userSkills : List Skill) (ai : Except String Guide) : GuideResponseBody :=
  match repoData with
  | none =>
    { status := 400, success := false, data := none,
      message := some "Repository data is required", isTemplate := none }
  | some r =>
    if r.fullName = "" then
      { status := 400, success := false, data := none,
        message := some "Repository data is required", isTemplate := none }
    else
      match ai with
      | .ok g =>
        { status := 200, success := true, data := some g,
          message := none, isTemplate := none }
      | .error _ =>
        { status := 200, success := true, data := some (templateGuide r issueData),
          message := none, isTemplate := some true }

/-- C6 counterexample: the add operation does not de-duplicate within the
submitted batch, only against already-stored skills, so a batch holding two
case-insensitive variants of the same name ("Python" and "python") leaves the
user's skill list with a case-insensitive duplicate, violating the claimed
invariant. -/
theorem c6_counterexample :
    ¬ uniqueCI (addSkillsHandler []
      (some [{ name := "Python" }, { name := "python" }])).skills := by
  decide

/-- C6 (amended): the add operation preserves case-insensitive uniqueness of
skill names for every input batch whose members are already pairwise
case-insensitively distinct; the filter removes every batch entry that
collides with a stored name, and the appended entries keep their submitted
names. -/
theorem c6_amended (user : List Skill) (batch : List SkillInput)
    (h1 : uniqueCI user)
    (h2 : batch.Pairwise (fun a b => (lowerName a.name) ≠ (lowerName b.name))) :
    uniqueCI (addSkillsHandler user (some batch)).skills := by
  unfold addSkillsHandler
  by_cases hb : batch.length = 0
  · simp [hb, h1]
  · simp only [hb, if_false]
    unfold uniqueCI
    rw [List.pairwise_append]
    refine ⟨h1, ?_, ?_⟩
    · rw [List.pairwise_map]
      exact (h2.filter _).imp (fun h => h)
    · intro a ha b hb
      rw [List.mem_map] at hb
      obtain ⟨c, hc, rfl⟩ := hb
      rw [List.mem_filter] at hc
      have hcontains := hc.2
      simp only [Bool.not_eq_true', List.contains_eq_any_beq, List.any_eq_false] at hcontains
      have := hcontains ((lowerName a.name)) (List.mem_map_of_mem _ ha)
      intro heq
      rw [heq] at this
      simp [mkManualSkill] at this

/-- Witness for the amended C6 theorem at a concrete batch. -/
theorem c6_amended_witness :
    uniqueCI []
    ∧ List.Pairwise (fun a b : SkillInput => (lowerName a.name) ≠ (lowerName b.name))
        [{ name := "A" }, { name := "b" }]
    ∧ uniqueCI (addSkillsHandler [] (some [{ name := "A" }, { name := "b" }])).skills :=
  ⟨by decide, by decide, c6_amended [] [{ name := "A" }, { name := "b" }] (by decide) (by decide)⟩

/-- C7: through the public route surface, `DELETE /api/skills/all` is captured
by the earlier-registered `DELETE /api/skills/:skillName` route (Express
dispatches in registration order and `:skillName` matches the segment
`all`), so for a user holding one skill named "Python" and a stored resume
the call answers 404 and removes neither the skills nor the resume — the
clear-all handler is unreachable. -/
theorem c7_clear_all_shadowed :
    dispatchDelete skillsDeleteRoutes
        { skills := [{ name := "Python", confidence := 80, category := "Manual" }],
          resume := some { filename := "resume.pdf" } } "all"
      = (404, { skills := [{ name := "Python", confidence := 80, category := "Manual" }],
                resume := some { filename := "resume.pdf" } }) := by
  decide

/-- C10: at the `POST /api/skills` interface, a submitted skill whose
`confidence` is any falsy value (0 or null/undefined/absent) is stored with
confidence 80, one whose `category` is any falsy value (the empty string or
null/undefined/absent) is stored with category "Manual", and consequently no
added skill ever carries confidence 0. -/
theorem c10_falsy_defaults (existing : List Skill) (batch : List SkillInput) :
    (∀ inp : SkillInput, (inp.confidence = none ∨ inp.confidence = some 0) →
        (mkManualSkill inp).confidence = 80)
    ∧ (∀ inp : SkillInput, (inp.category = none ∨ inp.category = some "") →
        (mkManualSkill inp).category = "Manual")
    ∧ (∀ s ∈ (addSkillsHandler existing (some batch)).added, s.confidence ≠ 0) := by
  refine ⟨?_, ?_, ?_⟩
  · rintro inp (h | h) <;> simp [mkManualSkill, confOrDefault, h]
  · rintro inp (h | h) <;> simp [mkManualSkill, catOrDefault, h]
  · intro s hs
    unfold addSkillsHandler at hs
    by_cases hb : batch.length = 0
    · simp [hb] at hs
    · simp only [hb, if_false] at hs
      rw [List.mem_map] at hs
      obtain ⟨c, _, rfl⟩ := hs
      simp only [mkManualSkill]
      unfold confOrDefault
      cases hconf : c.confidence with
      | none => decide
      | some v =>
        by_cases hv : v = 0
        · simp [hv]
        · simp [hv]

/-- Witness for the C10 theorem at a concrete falsy submission. -/
theorem c10_witness :
    (mkManualSkill { name := "Go", confidence := some 0, category := some "" }).confidence = 80
    ∧ (mkManualSkill { name := "Go", confidence := some 0, category := some "" }).category = "Manual"
    ∧ ({ name := "Go", confidence := 80, category := "Manual" } : Skill).confidence ≠ 0 := by
  have h := c10_falsy_defaults []
      [{ name := "Go", confidence := some 0, category := some "" }]
  exact ⟨h.1 _ (Or.inr rfl), h.2.1 _ (Or.inr rfl),
    h.2.2 { name := "Go", confidence := 80, category := "Manual" } (by decide)⟩

/-- C2: when the user's skill list is absent or empty, the recommendations
operation answers with the 400 validation response and its network-call
trace is empty — no AI call and no GitHub call is attempted, whatever those
upstreams would have answered. -/
theorem c2_empty_skills_validation (user : RecUser) (ai : Except String (List RecRepo))
    (gh : Except String (List GhRepo)) (rng : Nat → Nat)
    (h : user.skills = none ∨ user.skills = some []) :
    (recommendationsHandler user ai gh rng).1
        = RecResponse.validation ("No skills found. Please upload your resume first.")
    ∧ (recommendationsHandler user ai gh rng).2 = [] := by
  rcases h with h | h <;> simp [recommendationsHandler, h]

/-- Witness for the C2 theorem at a user with an empty skill list. -/
theorem c2_witness :
    (recommendationsHandler { skills := some [], userId := "u1" }
        (Except.error ("down")) (Except.error ("down")) (fun _ => 0)).1
      = RecResponse.validation ("No skills found. Please upload your resume first.")
    ∧ (recommendationsHandler { skills := some [], userId := "u1" }
        (Except.error ("down")) (Except.error ("down")) (fun _ => 0)).2 = [] :=
  c2_empty_skills_validation _ _ _ _ (Or.inr rfl)

/-- C1 counterexample: for a user with the non-empty skill list
`[{name: "Python", confidence: 90}]`, an AI call that succeeds with an empty
`recommendations` array is forwarded verbatim, so the operation succeeds
with an empty result list — refuting "returns a non-empty result list
whenever the AI-service path succeeds". -/
theorem c1_counterexample :
    (recommendationsHandler
        { skills := some [{ name := "Python", confidence := 90, category := "Extracted" }],
          userId := "u1" }
        (Except.ok []) (Except.ok []) (fun _ => 0)).1 = RecResponse.ok [] := by
  decide

/-- C1 (amended): for a user with a non-empty skill list the operation
returns the succeeding path's list verbatim — the AI list on AI success,
otherwise the mapped GitHub items, whose count (hence non-emptiness) equals
the upstream item count — and produces the 500 upstream-failure response
exactly when the AI call and the fallback search both fail. -/
theorem c1_amended (user : RecUser) (skills : List Skill) (ai : Except String (List RecRepo))
    (gh : Except String (List GhRepo)) (rng : Nat → Nat)
    (hs : user.skills = some skills) (hne : skills ≠ []) :
    (∀ recs, ai = Except.ok recs →
        (recommendationsHandler user ai gh rng).1 = RecResponse.ok recs)
    ∧ (∀ e items, ai = Except.error e → gh = Except.ok items →
        (recommendationsHandler user ai gh rng).1
          = RecResponse.ok (items.enum.map (fun p => fallbackRepo (topSkills skills) rng p.1 p.2))
        ∧ (items.enum.map (fun p => fallbackRepo (topSkills skills) rng p.1 p.2)).length
            = items.length)
    ∧ ((∃ m, (recommendationsHandler user ai gh rng).1 = RecResponse.failure m)
        ↔ (∃ e, ai = Except.error e) ∧ (∃ e, gh = Except.error e)) := by
  have hlen : ¬ skills.length = 0 := by
    simpa [List.length_eq_zero] using hne
  refine ⟨?_, ?_, ?_, ?_⟩
  · intro recs hai
    simp [recommendationsHandler, hs, hlen, hai]
  · intro e items hai hgh
    simp [recommendationsHandler, hs, hlen, hai, hgh]
  · rintro ⟨m, hm⟩
    cases ai with
    | ok recs => simp [recommendationsHandler, hs, hlen] at hm
    | error e =>
      cases gh with
      | ok items => simp [recommendationsHandler, hs, hlen] at hm
      | error e2 => exact ⟨⟨e, rfl⟩, ⟨e2, rfl⟩⟩
  · rintro ⟨⟨e, hae⟩, ⟨e2, hge⟩⟩
    exact ⟨"Failed to get recommendations", by simp [recommendationsHandler, hs, hlen, hae, hge]⟩

/-- Witness for the amended C1 theorem: the AI path returns its single
recommendation verbatim. -/
theorem c1_amended_witness :
    (recommendationsHandler
        { skills := some [{ name := "Python", confidence := 90, category := "Extracted" }],
          userId := "u1" }
        (Except.ok [{ id := 1, name := "r", fullName := "o/r", ownerLogin := "o",
                      ownerAvatarUrl := "a", description := "d", stars := 5, forks := 1,
                      language := "Py", topics := [], updatedAt := "t", matchScore := 95,
                      matchReason := "m", goodFirstIssues := 5, difficulty := "Easy" }])
        (Except.error ("x")) (fun _ => 0)).1
      = RecResponse.ok [{ id := 1, name := "r", fullName := "o/r", ownerLogin := "o",
                          ownerAvatarUrl := "a", description := "d", stars := 5, forks := 1,
                          language := "Py", topics := [], updatedAt := "t", matchScore := 95,
                          matchReason := "m", goodFirstIssues := 5, difficulty := "Easy" }] :=
  (c1_amended _ [{ name := "Python", confidence := 90, category := "Extracted" }] _ _ _
    rfl (by decide)).1 _ rfl

/-- C8: the guide handler's output on the template path is a function of the
repository and issue data alone — for any two calls with identical
`(repoData, issueData)` in which the AI call fails, the responses are
byte-identical, whatever the user skills and whatever the two AI errors
were; no randomness enters the template. -/
theorem c8_template_deterministic (repoData : Option RepoData) (issueData : Option IssueData)
    (skills1 skills2 : List Skill) (e1 e2 : String) :
    guideGenerateHandler repoData issueData skills1 (Except.error e1)
      = guideGenerateHandler repoData issueData skills2 (Except.error e2) := by
  cases repoData with
  | none => rfl
  | some r => by_cases h : r.fullName = "" <;> simp [guideGenerateHandler, h]

/-- C9: on the template path for repo `facebook/react` and issue
`{number: 42, title: "Fix bug", difficulty: "easy"}` the guide has exactly
10 getting-started steps, one of them contains the literal substring
`issue-42`, and `issueAnalysis.estimatedTime` is `1-3 hours`; moreover an
absent difficulty defaults to `medium`, and the handler serves exactly this
template guide whenever the AI call fails. -/
theorem c9_template_scenario :
    (templateGuide { fullName := "facebook/react", name := "react" }
        (some { title := some "Fix bug", number := some 42,
                difficulty := some "easy" })).gettingStarted.length = 10
    ∧ (∃ step ∈ (templateGuide { fullName := "facebook/react", name := "react" }
          (some { title := some "Fix bug", number := some 42,
                  difficulty := some "easy" })).gettingStarted,
        ∃ pre post, step = pre ++ "issue-42" ++ post)
    ∧ (templateGuide { fullName := "facebook/react", name := "react" }
        (some { title := some "Fix bug", number := some 42,
                difficulty := some "easy" })).issueAnalysis.estimatedTime = "1-3 hours"
    ∧ (∀ (r : RepoData) (t : Option String) (n : Option Nat) (ls : Option (List String)),
        (templateGuide r
            (some { title := t, number := n, difficulty := none, labels := ls })).issueAnalysis.difficulty = "medium")
    ∧ (∀ r : RepoData, (templateGuide r none).issueAnalysis.difficulty = "medium")
    ∧ (∀ (skills : List Skill) (e : String),
        (guideGenerateHandler (some { fullName := "facebook/react", name := "react" })
            (some { title := some "Fix bug", number := some 42, difficulty := some "easy" })
            skills (Except.error e)).data
          = some (templateGuide { fullName := "facebook/react", name := "react" }
              (some { title := some "Fix bug", number := some 42,
                      difficulty := some "easy" }))) := by
  refine ⟨by decide, ?_, by decide, ?_, ?_, ?_⟩
  · exact ⟨"Create a new branch: `git checkout -b fix/issue-42`", by decide,
      "Create a new branch: `git checkout -b fix/", "`", by decide⟩
  · intro r t n ls
    simp [templateGuide, strOr]
  · intro r
    simp [templateGuide, strOr]
  · intro skills e
    rfl

/-- C5 counterexample: a successful recommendations response carries only
`success` and `data`, so the AI path and the fallback path can produce
byte-identical responses — here an AI success whose payload coincides with
what the fallback builds from one GitHub item — and no flag (nor any
function of the response) can tell the caller which path ran. -/
theorem c5_counterexample :
    (recommendationsHandler
        { skills := some [{ name := "Python", confidence := 90, category := "Extracted" }],
          userId := "u1" }
        (Except.ok [{ id := 7, name := "awesome", fullName := "org/awesome",
                      ownerLogin := "org", ownerAvatarUrl := "a", description := "d",
                      stars := 100, forks := 10, language := "Python",
                      topics := ["python"], updatedAt := "2024",
                      matchScore := 95, matchReason := "Matches your Python skills",
                      goodFirstIssues := 5, difficulty := "Easy" }])
        (Except.error ("x")) (fun _ => 0)).1
      = (recommendationsHandler
          { skills := some [{ name := "Python", confidence := 90, category := "Extracted" }],
            userId := "u1" }
          (Except.error ("down"))
          (Except.ok [{ id := 7, name := "awesome", full_name := "org/awesome",
                        owner_login := "org", owner_avatar_url := "a", description := "d",
                        stargazers_count := 100, forks_count := 10, language := "Python",
                        topics := some ["python"], updated_at := "2024" }])
          (fun _ => 0)).1 := by
  decide

/-- C5 (amended): guide responses are distinguishable — the fallback 200 body
carries `isTemplate: true` while the AI-path 200 body omits the key (and
forwards the AI guide verbatim); recommendation responses carry no such
flag at all (see the counterexample). -/
theorem c5_amended (r : RepoData) (issueData : Option IssueData) (skills : List Skill)
    (g : Guide) (e : String) (h : r.fullName ≠ "") :
    (guideGenerateHandler (some r) issueData skills (Except.ok g)).isTemplate = none
    ∧ (guideGenerateHandler (some r) issueData skills (Except.ok g)).data = some g
    ∧ (guideGenerateHandler (some r) issueData skills (Except.error e)).isTemplate
        = some true := by
  simp [guideGenerateHandler, h]

/-- Witness for the amended C5 theorem at a concrete repository. -/
theorem c5_amended_witness :
    (guideGenerateHandler (some { fullName := "facebook/react", name := "react" }) none []
        (Except.ok (templateGuide { fullName := "facebook/react", name := "react" } none))).isTemplate
      = none
    ∧ (guideGenerateHandler (some { fullName := "facebook/react", name := "react" }) none []
        (Except.ok (templateGuide { fullName := "facebook/react", name := "react" } none))).data
      = some (templateGuide { fullName := "facebook/react", name := "react" } none)
    ∧ (guideGenerateHandler (some { fullName := "facebook/react", name := "react" }) none []
        (Except.error ("down"))).isTemplate = some true :=
  c5_amended { fullName := "facebook/react", name := "react" } none []
    (templateGuide { fullName := "facebook/react", name := "react" } none) "down" (by decide)

theorem mem_specInsert {p x : Nat × Skill} {l : List (Nat × Skill)}
    (h : p ∈ specInsert x l) : p = x ∨ p ∈ l := by
  induction l with
  | nil =>
    simp only [specInsert, List.mem_singleton] at h
    exact Or.inl h
  | cons y ys ih =>
    simp only [specInsert] at h
    split at h
    · rcases List.mem_cons.mp h with h | h
      · exact Or.inr (h ▸ List.mem_cons_self y ys)
      · rcases ih h with h | h
        · exact Or.inl h
        · exact Or.inr (List.mem_cons_of_mem _ h)
    · rcases List.mem_cons.mp h with h | h
      · exact Or.inl h
      · exact Or.inr h

theorem specInsert_map_snd (i : Nat) (x : Skill) :
    ∀ (acc : List (Nat × Skill)), (∀ p ∈ acc, p.1 < i) →
      (specInsert (i, x) acc).map Prod.snd = insertByConf x (acc.map Prod.snd) := by
  intro acc
  induction acc with
  | nil => intro _; rfl
  | cons q acc ih =>
    intro h
    obtain ⟨j, y⟩ := q
    have hj : j < i := h (j, y) (List.mem_cons_self _ _)
    have hrest : ∀ p ∈ acc, p.1 < i := fun p hp => h p (List.mem_cons_of_mem _ hp)
    simp only [specInsert, insertByConf, List.map_cons]
    by_cases hc : x.confidence ≤ y.confidence
    · have hb : specBefore (j, y) (i, x) := by
        rcases lt_or_eq_of_le hc with h1 | h1
        · exact Or.inl h1
        · exact Or.inr ⟨h1.symm, hj⟩
      rw [if_pos hb, if_pos hc, List.map_cons, ih hrest]
    · have hb : ¬ specBefore (j, y) (i, x) := by
        rintro (h1 | h1)
        · exact hc (le_of_lt h1)
        · exact hc (le_of_eq h1.1.symm)
      rw [if_neg hb, if_neg hc]
      simp

theorem specSort_enumFrom_map_snd :
    ∀ (l : List Skill) (n : Nat) (acc : List (Nat × Skill)), (∀ p ∈ acc, p.1 < n) →
      ((List.enumFrom n l).foldl (fun a x => specInsert x a) acc).map Prod.snd
        = l.foldl (fun a x => insertByConf x a) (acc.map Prod.snd) := by
  intro l
  induction l with
  | nil => intro n acc _; rfl
  | cons x l ih =>
    intro n acc h
    have hstep : (List.enumFrom n (x :: l)).foldl (fun a x => specInsert x a) acc
        = (List.enumFrom (n + 1) l).foldl (fun a x => specInsert x a) (specInsert (n, x) acc) := rfl
    rw [hstep]
    have hbound : ∀ p ∈ specInsert (n, x) acc, p.1 < n + 1 := by
      intro p hp
      rcases mem_specInsert hp with rfl | hp
      · exact Nat.lt_succ_self n
      · exact Nat.lt_succ_of_lt (h p hp)
    rw [ih (n + 1) _ hbound, specInsert_map_snd n x acc h]
    rfl

theorem sortByConfDesc_eq_specSort (l : List Skill) :
    (specSort l.enum).map Prod.snd = sortByConfDesc l := by
  have h := specSort_enumFrom_map_snd l 0 [] (by intro p hp; cases hp)
  simpa [specSort, sortByConfDesc, List.enum] using h

theorem specBefore_trans {a b c : Nat × Skill}
    (h1 : specBefore a b) (h2 : specBefore b c) : specBefore a c := by
  unfold specBefore at h1 h2 ⊢
  omega

theorem specBefore_total {a b : Nat × Skill} (hne : a.1 ≠ b.1) (h : ¬ specBefore a b) :
    specBefore b a := by
  unfold specBefore at h ⊢
  omega

theorem pairwise_specInsert {x : Nat × Skill} :
    ∀ {l : List (Nat × Skill)}, l.Pairwise specBefore → (∀ p ∈ l, p.1 ≠ x.1) →
      (specInsert x l).Pairwise specBefore := by
  intro l
  induction l with
  | nil =>
    intro _ _
    simp [specInsert]
  | cons y ys ih =>
    intro hp hne
    rw [List.pairwise_cons] at hp
    obtain ⟨hy, hys⟩ := hp
    rw [specInsert]
    split
    case isTrue hc =>
      rw [List.pairwise_cons]
      refine ⟨?_, ih hys (fun p hp => hne p (List.mem_cons_of_mem _ hp))⟩
      intro q hq
      rcases mem_specInsert hq with rfl | hq
      · exact hc
      · exact hy q hq
    case isFalse hc =>
      have hxy : specBefore x y :=
        specBefore_total (hne y (List.mem_cons_self _ _)) hc
      rw [List.pairwise_cons]
      refine ⟨?_, List.pairwise_cons.mpr ⟨hy, hys⟩⟩
      intro q hq
      rcases List.mem_cons.mp hq with rfl | hq
      · exact hxy
      · exact specBefore_trans hxy (hy q hq)

theorem pairwise_specSort_enumFrom :
    ∀ (l : List Skill) (n : Nat) (acc : List (Nat × Skill)),
      acc.Pairwise specBefore → (∀ p ∈ acc, p.1 < n) →
      ((List.enumFrom n l).foldl (fun a x => specInsert x a) acc).Pairwise specBefore := by
  intro l
  induction l with
  | nil => intro n acc hp _; exact hp
  | cons x l ih =>
    intro n acc hp h
    have hstep : (List.enumFrom n (x :: l)).foldl (fun a x => specInsert x a) acc
        = (List.enumFrom (n + 1) l).foldl (fun a x => specInsert x a) (specInsert (n, x) acc) := rfl
    rw [hstep]
    have hbound : ∀ p ∈ specInsert (n, x) acc, p.1 < n + 1 := by
      intro p hp2
      rcases mem_specInsert hp2 with rfl | hp2
      · exact Nat.lt_succ_self n
      · exact Nat.lt_succ_of_lt (h p hp2)
    exact ih (n + 1) _ (pairwise_specInsert hp (fun p hp2 => Nat.ne_of_lt (h p hp2))) hbound

theorem specSort_enum_pairwise (l : List Skill) :
    (specSort l.enum).Pairwise specBefore := by
  have h := pairwise_specSort_enumFrom l 0 [] (by simp) (by simp)
  simpa [specSort, List.enum] using h

theorem specInsert_perm (x : Nat × Skill) (l : List (Nat × Skill)) :
    List.Perm (specInsert x l) (x :: l) := by
  induction l with
  | nil => exact List.Perm.refl _
  | cons y ys ih =>
    rw [specInsert]
    split
    · exact (ih.cons y).trans (List.Perm.swap x y ys)
    · exact List.Perm.refl _

theorem foldl_specInsert_perm :
    ∀ (m acc : List (Nat × Skill)),
      List.Perm (m.foldl (fun a x => specInsert x a) acc) (m ++ acc) := by
  intro m
  induction m with
  | nil => intro acc; simp
  | cons x m ih =>
    intro acc
    have h2 := ih (specInsert x acc)
    have h3 : List.Perm (m ++ specInsert x acc) (m ++ (x :: acc)) :=
      List.Perm.append_left m (specInsert_perm x acc)
    have h4 : List.Perm (m ++ (x :: acc)) (x :: (m ++ acc)) := List.perm_middle
    exact (h2.trans h3).trans h4

theorem specSort_perm (l : List (Nat × Skill)) : List.Perm (specSort l) l := by
  have h := foldl_specInsert_perm l []
  simpa [specSort] using h

/-- C3: the handler's query basis equals the names of the first five entries
of the canonical arrangement of the index-tagged skill list — the
arrangement that is a permutation of the original list and is pairwise
ordered by `specBefore` (strictly higher confidence first, ties by lower
original index).  Since `specBefore` is total on distinct indices, that
arrangement is exactly "descending confidence with ties broken by insertion
order", so the stable JS sort picks precisely the spec's top 5. -/
theorem c3_top5_stable (skills : List Skill) :
    topSkills skills = ((specSort skills.enum).take 5).map (fun p => p.2.name)
    ∧ (specSort skills.enum).Pairwise specBefore
    ∧ List.Perm (specSort skills.enum) skills.enum := by
  refine ⟨?_, specSort_enum_pairwise skills, specSort_perm _⟩
  have h := sortByConfDesc_eq_specSort skills
  unfold topSkills
  rw [← h, ← List.map_take, List.map_map]
  rfl

/-- C4: when the AI call fails for a user with a non-empty skill list, the
handler issues exactly one GitHub repository search — query
`t1 OR … OR t5 good-first-issues:>0` over the top-5 skill names, sorted by
stars descending, capped at 10 results — and answers 200 with one result
per returned item, where the item of rank `i` carries
`matchScore = 95 - 5*i` (so scores are monotonically non-increasing in
rank) and a `matchReason` containing the top skill's name. -/
theorem c4_fallback (s0 : Skill) (rest : List Skill) (uid e : String)
    (items : List GhRepo) (rng : Nat → Nat) :
    (recommendationsHandler { skills := some (s0 :: rest), userId := uid }
        (Except.error e) (Except.ok items) rng).2
      = [NetCall.aiRecommend (topSkills (s0 :: rest)) uid,
         NetCall.githubSearch
           (String.intercalate (" OR ") (topSkills (s0 :: rest)) ++ " good-first-issues:>0")
           ("stars") ("desc") 10]
    ∧ ∃ l, (recommendationsHandler { skills := some (s0 :: rest), userId := uid }
          (Except.error e) (Except.ok items) rng).1 = RecResponse.ok l
        ∧ l.length = items.length
        ∧ l.map (fun r => r.matchScore)
            = (List.range items.length).map (fun i : Nat => 95 - 5 * (i : Int))
        ∧ l.Pairwise (fun a b => b.matchScore ≤ a.matchScore)
        ∧ ∀ r ∈ l, ∃ pre post,
            r.matchReason = pre ++ (topSkills (s0 :: rest)).getD 0 ("undefined") ++ post := by
  have hlen : ¬ (s0 :: rest).length = 0 := by simp
  refine ⟨by simp [recommendationsHandler, hlen], ?_⟩
  refine ⟨items.enum.map (fun p => fallbackRepo (topSkills (s0 :: rest)) rng p.1 p.2),
    by simp [recommendationsHandler, hlen], by simp, ?_, ?_, ?_⟩
  · rw [List.map_map]
    have h1 : ((fun r : RecRepo => r.matchScore)
          ∘ fun p : Nat × GhRepo => fallbackRepo (topSkills (s0 :: rest)) rng p.1 p.2)
        = (fun i : Nat => 95 - 5 * (i : Int)) ∘ Prod.fst := rfl
    rw [h1, ← List.map_map, List.enum_map_fst]
  · rw [List.pairwise_map]
    have h1 : (items.enum.map Prod.fst).Pairwise (fun a b => a < b) := by
      rw [List.enum_map_fst]
      exact List.pairwise_lt_range _
    rw [List.pairwise_map] at h1
    refine h1.imp ?_
    intro a b hab
    show (fallbackRepo _ rng b.1 b.2).matchScore ≤ (fallbackRepo _ rng a.1 a.2).matchScore
    simp only [fallbackRepo]
    omega
  · intro r hr
    rw [List.mem_map] at hr
    obtain ⟨p, _, rfl⟩ := hr
    exact ⟨"Matches your ", " skills", rfl⟩

/-- Witness for the C4 theorem: the trace of the fallback run at a concrete
one-skill user. -/
theorem c4_witness :
    (recommendationsHandler
        { skills := some [{ name := "Python", confidence := 90, category := "Extracted" }],
          userId := "u7" }
        (Except.error ("down")) (Except.ok []) (fun _ => 1)).2
      = [NetCall.aiRecommend ["Python"] "u7",
         NetCall.githubSearch ("Python good-first-issues:>0") ("stars") ("desc") 10] := by
  have h := (c4_fallback { name := "Python", confidence := 90, category := "Extracted" }
    [] "u7" "down" [] (fun _ => 1)).1
  exact h

end GitCompass
